import Mathlib

/-!
Verification of the `atoms` reactive engine (`src/hazmat.ts`).

The embedding models the engine as an arena of nodes addressed by `Nat`
identifiers, a heap of cache objects (so that JavaScript reference
identity between `value` and `committedValue` is represented by equality
of heap references), an explicit execution/update context, and a deep
embedding `Prog` of the closures (derive bodies, effect callbacks, batch
bodies) that the scenarios need.  All engine operations are interpreted
by one fueled step function `step`, structurally recursive on the fuel,
so every run of a concrete scenario is kernel-computable.  Fuel is
consumed once per (mutually recursive) call, so it bounds the call
depth; `none` means the fuel ran out, which on a self-feeding recursion
models divergence.
-/

namespace Atoms

/-- Faults thrown by the engine or by user closures, mirroring the
`throw new Error(...)` sites of `hazmat.ts` plus user-raised faults. -/
inductive Err where
  | cyclic
  | setInDerived
  | untrackedInDerived
  | unwrapUninit
  | user (n : Int)
deriving DecidableEq, Repr

/-- A cache object on the heap: the `Cache<T>` tagged union of
`hazmat.ts` (`CachedValue | CachedError | Uninitialized`). -/
inductive CacheV where
  | val (n : Int)
  | err (e : Err)
  | uninit
deriving DecidableEq, Repr

/-- Transaction status of the update context
(`UpdateStatus.INACTIVE | ACTIVE | BATCHED`). -/
inductive UpdateStatus where
  | inactive
  | active
  | batched
deriving DecidableEq, Repr

/-- Deep embedding of the closures used as derive bodies, effect
callbacks and batch bodies.  Node identifiers are arena indices. -/
inductive Prog where
  | lit (n : Int)
  | getVal (node : Nat)
  | setVal (node : Nat) (p : Prog)
  | opAdd (p q : Prog)
  | opMul (p q : Prog)
  | opAnd (p q : Prog)
  | iteEq (p : Prog) (k : Int) (t e : Prog)
  | throwE (e : Err)
  | seq (p q : Prog)
  | logV (p : Prog)
  | untrackedP (p : Prog)
  | runCtx (target : Nat) (p : Prog)
  | batchP (p : Prog)
  | disposeP (effect : Nat)
deriving DecidableEq, Repr

/-- The `ValueNode` of `hazmat.ts`: current draft, committed value, and the
subscriber map (association list in insertion order, as a JS `Map`). -/
structure ValueData where
  value : Int
  committedValue : Int
  targets : List (Nat × Nat)
deriving DecidableEq, Repr

/-- The `DerivedNode` of `hazmat.ts`.  `valueRef`/`committedValueRef` are
heap references into the cache heap: reference equality models the
JavaScript `value !== committedValue` check. -/
structure DerivedData where
  derive : Prog
  valueRef : Nat
  committedValueRef : Nat
  targets : List (Nat × Nat)
  sources : List Nat
  invalidatedSourcesCount : Int
  running : Bool
  rollback : Bool
deriving DecidableEq, Repr

/-- The `EffectNode` of `hazmat.ts`. -/
structure EffectData where
  notify : Prog
  sources : List Nat
  invalidatedSourcesCount : Int
  running : Bool
  tracking : Bool
deriving DecidableEq, Repr

/-- A node of the arena: value cell, derived computation, or effect. -/
inductive Node where
  | value (v : ValueData)
  | derived (d : DerivedData)
  | effect (e : EffectData)
deriving DecidableEq, Repr

/-- The whole engine state: node arena, cache heap, the global
`EXECUTION` context (`currentTarget`, `sourceIndex`), the global
`UPDATE` context (status and the three pending sets), and the log of
values recorded by effect callbacks. -/
structure State where
  nodes : List Node
  caches : List CacheV
  currentTarget : Option Nat
  sourceIndex : Nat
  status : UpdateStatus
  uncommittedSources : List Nat
  invalidatedEffects : List Nat
  possiblyInvalidatedDerived : List Nat
  log : List Int
deriving DecidableEq, Repr

def initState : State :=
  ⟨[], [], none, 0, .inactive, [], [], [], []⟩

/-! ### Basic accessors and mutators -/

def nodeAt (s : State) (i : Nat) : Node :=
  s.nodes.getD i (.value ⟨0, 0, []⟩)

def setNode (s : State) (i : Nat) (n : Node) : State :=
  { s with nodes := s.nodes.set i n }

def modifyNode (s : State) (i : Nat) (f : Node → Node) : State :=
  setNode s i (f (nodeAt s i))

def cacheAt (s : State) (i : Nat) : CacheV :=
  s.caches.getD i .uninit

def setCacheObj (s : State) (i : Nat) (c : CacheV) : State :=
  { s with caches := s.caches.set i c }

def allocCache (s : State) (c : CacheV) : Nat × State :=
  (s.caches.length, { s with caches := s.caches ++ [c] })

def isDerivedN : Node → Bool
  | .derived _ => true
  | _ => false

def isEffectN : Node → Bool
  | .effect _ => true
  | _ => false

def isValueN : Node → Bool
  | .value _ => true
  | _ => false

def runningN : Node → Bool
  | .derived d => d.running
  | .effect e => e.running
  | .value _ => false

def trackingN : Node → Bool
  | .effect e => e.tracking
  | _ => false

def rollbackN : Node → Bool
  | .derived d => d.rollback
  | _ => false

def countN : Node → Int
  | .derived d => d.invalidatedSourcesCount
  | .effect e => e.invalidatedSourcesCount
  | .value _ => 0

def targetsN : Node → List (Nat × Nat)
  | .value v => v.targets
  | .derived d => d.targets
  | .effect _ => []

def sourcesN : Node → List Nat
  | .derived d => d.sources
  | .effect e => e.sources
  | .value _ => []

/-- Checks `isInvalidated(target)`: `invalidatedSourcesCount > 0`. -/
def isInvalidatedN (n : Node) : Bool :=
  countN n > 0

/-- Checks `isUncommitted(source)`: `value !== committedValue` (reference
inequality for derived caches, numeric inequality for value cells). -/
def isUncommittedN : Node → Bool
  | .value v => v.value ≠ v.committedValue
  | .derived d => d.valueRef ≠ d.committedValueRef
  | .effect _ => false

/-- Checks `isInvalidatedOrUncommitted(source)` from `hazmat.ts`. -/
def isInvOrUncommittedN (n : Node) : Bool :=
  isUncommittedN n || (isDerivedN n && isInvalidatedN n)

def setRunningNode : Node → Bool → Node
  | .derived d, b => .derived { d with running := b }
  | .effect e, b => .effect { e with running := b }
  | n, _ => n

def setTrackingNode : Node → Bool → Node
  | .effect e, b => .effect { e with tracking := b }
  | n, _ => n

def setRollbackNode : Node → Bool → Node
  | .derived d, b => .derived { d with rollback := b }
  | n, _ => n

def setCountNode : Node → Int → Node
  | .derived d, c => .derived { d with invalidatedSourcesCount := c }
  | .effect e, c => .effect { e with invalidatedSourcesCount := c }
  | n, _ => n

def addCountNode (n : Node) (c : Int) : Node :=
  setCountNode n (countN n + c)

def setTargetsNode : Node → List (Nat × Nat) → Node
  | .value v, m => .value { v with targets := m }
  | .derived d, m => .derived { d with targets := m }
  | n, _ => n

def setSourcesNode : Node → List Nat → Node
  | .derived d, l => .derived { d with sources := l }
  | .effect e, l => .effect { e with sources := l }
  | n, _ => n

/-! ### JS `Map` and `Set` modelling

The subscriber maps are association lists in insertion order; `set` on
an existing key updates in place, `delete` removes the entry.  The
pending sets are duplicate-free lists in insertion order. -/

def mapGet (m : List (Nat × Nat)) (k : Nat) : Option Nat :=
  (m.find? (fun kv => kv.1 = k)).map (·.2)

def mapSet (m : List (Nat × Nat)) (k v : Nat) : List (Nat × Nat) :=
  if (m.find? (fun kv => kv.1 = k)).isSome then
    m.map (fun kv => if kv.1 = k then (k, v) else kv)
  else
    m ++ [(k, v)]

def mapDel (m : List (Nat × Nat)) (k : Nat) : List (Nat × Nat) :=
  m.filter (fun kv => kv.1 ≠ k)

/-- Live-map iteration step: the first entry whose key has not been
visited yet.  This mirrors a JS `Map` iterator over a map that may be
mutated by the loop body: deleted entries are skipped, entries added
during iteration are visited, and the count is read at visit time. -/
def findUnvisited (m : List (Nat × Nat)) (visited : List Nat) :
    Option (Nat × Nat) :=
  m.find? (fun kv => ¬ visited.contains kv.1)

def addSet (l : List Nat) (x : Nat) : List Nat :=
  if l.contains x then l else l ++ [x]

/-- Array slot assignment `sources[idx] = src` (extends by one when
`idx` equals the length, as JS arrays do in this engine). -/
def listSetExtend (l : List Nat) (i : Nat) (x : Nat) : List Nat :=
  if i < l.length then l.set i x else l ++ [x]

/-! ### Pure engine helpers -/

/-- Performs `subscribe(source, target)` from `hazmat.ts`. -/
def subscribe (s : State) (src tgt : Nat) : State :=
  let m := targetsN (nodeAt s src)
  match mapGet m tgt with
  | none => modifyNode s src (fun n => setTargetsNode n (mapSet m tgt 1))
  | some c => modifyNode s src (fun n => setTargetsNode n (mapSet m tgt (c + 1)))

/-- Performs `setDerivedValue(derived, value)`: in a batch, allocate a fresh
cache object (making the node uncommitted); otherwise mutate the
current cache object in place. -/
def setDerivedValue (s : State) (d : Nat) (v : Int) : State :=
  match nodeAt s d with
  | .derived dd =>
    if s.status = .batched then
      let (id, s₁) := allocCache s (.val v)
      setNode s₁ d (.derived { dd with valueRef := id })
    else
      setCacheObj s dd.valueRef (.val v)
  | _ => s

/-- Performs `setDerivedError(derived, error)`. -/
def setDerivedError (s : State) (d : Nat) (e : Err) : State :=
  match nodeAt s d with
  | .derived dd =>
    if s.status = .batched then
      let (id, s₁) := allocCache s (.err e)
      setNode s₁ d (.derived { dd with valueRef := id })
    else
      setCacheObj s dd.valueRef (.err e)
  | _ => s

/-- Performs `setUninitialized(derived)` of `hazmat.ts`. -/
def setUninitialized (s : State) (d : Nat) : State :=
  match nodeAt s d with
  | .derived dd =>
    if s.status = .batched then
      let (id, s₁) := allocCache s .uninit
      setNode s₁ d (.derived { dd with valueRef := id })
    else
      setCacheObj s dd.valueRef .uninit
  | _ => s

/-- Performs `commitSources()`: drain the uncommitted-sources set, copying each
draft into the committed slot (for derived nodes, re-aliasing the
committed reference onto the draft object). -/
def commitOne (s : State) (i : Nat) : State :=
  match nodeAt s i with
  | .value v => setNode s i (.value { v with committedValue := v.value })
  | .derived d => setNode s i (.derived { d with committedValueRef := d.valueRef })
  | n => setNode s i n

def commitSources (s : State) : State :=
  { s.uncommittedSources.foldl commitOne s with uncommittedSources := [] }

/-- The upstream rescan at the end of `rollback`: count the sources
that are still invalidated or uncommitted. -/
def countInvOrUncommitted (s : State) (l : List Nat) : Int :=
  l.foldl (fun acc i => if isInvOrUncommittedN (nodeAt s i) then acc + 1 else acc) 0

/-- Performs `unwrapCache(cache)`: a `Value` yields its payload, an `Error`
re-raises the stored fault, `Uninitialized` raises the internal
unwrap-uninitialized fault. -/
def unwrapCache : CacheV → Except Err Int
  | .val n => .ok n
  | .err e => .error e
  | .uninit => .error .unwrapUninit

/-- Arena constructor mirroring `makeValueNode`. -/
def makeValueNode (s : State) (v : Int) : Nat × State :=
  (s.nodes.length, { s with nodes := s.nodes ++ [.value ⟨v, v, []⟩] })

/-- Arena constructor mirroring `makeDerivedNode`: one fresh cache
object aliased by both `value` and `committedValue`. -/
def makeDerivedNode (s : State) (p : Prog) : Nat × State :=
  let (cid, s₁) := allocCache s .uninit
  (s₁.nodes.length,
    { s₁ with nodes := s₁.nodes ++ [.derived ⟨p, cid, cid, [], [], 0, false, false⟩] })

/-- Arena constructor mirroring `makeEffectNode` (used only at setup
time with no active derived frame, so the context guard is vacuous). -/
def makeEffectNode (s : State) (p : Prog) : Nat × State :=
  (s.nodes.length, { s with nodes := s.nodes ++ [.effect ⟨p, [], 0, false, true⟩] })

/-! ### The interpreter

One fueled step function interprets every engine operation and every
closure.  `Call` enumerates the mutually recursive operations of
`hazmat.ts` (plus the explicit loops hidden in its `for` statements).
The result is `none` when the fuel is exhausted, otherwise the
JavaScript outcome: a normal value or a thrown fault, with the final
state.  Fuel is consumed one unit per nested call, so it bounds call
depth; sequential calls in one body share the same budget. -/

inductive Call where
  | eval (p : Prog)
  | runInContext (target : Nat) (p : Prog)
  | truncateLoop (target : Nat) (i : Nat)
  | getValue (src : Nat)
  | setValue (node : Nat) (v : Int)
  | invalidate (src : Nat)
  | invalidateLoop (src : Nat) (visited : List Nat)
  | uninvalidate (src : Nat)
  | uninvalidateLoop (src : Nat) (visited : List Nat)
  | revalidate (d : Nat)
  | rollback (d : Nat)
  | rollbackLoop (d : Nat) (visited : List Nat)
  | runEffects
  | runEffect (e : Nat)
  | runEffectLoop (e : Nat) (i : Nat)
  | checkForDisposal (d : Nat)
  | unsubscribeAllLoop (t : Nat) (i : Nat)
  | cleanupNodes
  | unsubscribe (src : Nat) (tgt : Nat)
  | batch (p : Prog)
  | untracked (p : Prog)
  | disposeEffect (e : Nat)
deriving DecidableEq, Repr

abbrev StepRes := Option (Except Err Int × State)

def okR (v : Int) (s : State) : StepRes := some (.ok v, s)

def errR (e : Err) (s : State) : StepRes := some (.error e, s)

def bindR (r : StepRes) (k : Int → State → StepRes) : StepRes :=
  match r with
  | none => none
  | some (.error e, s) => some (.error e, s)
  | some (.ok v, s) => k v s

def isUninitC : CacheV → Bool
  | .uninit => true
  | _ => false

def isErrC : CacheV → Bool
  | .err _ => true
  | _ => false

/-- Rescan at the end of `rollback`: reset the count to zero, then walk
the sources in order, incrementing for each one that is invalidated or
uncommitted at visit time. -/
def rescanCount (s : State) (d : Nat) (l : List Nat) : State :=
  l.foldl
    (fun st u =>
      if isInvOrUncommittedN (nodeAt st u) then
        modifyNode st d (fun n => addCountNode n 1)
      else st)
    (modifyNode s d (fun n => setCountNode n 0))

/-- One layer of the interpreter: `go` is the continuation used for
every nested call (one fuel unit deeper).  Factoring the body out of
the fueled fixpoint lets proofs unfold exactly one call level at a
time. -/
def stepBody (go : Call → State → StepRes) : Call → State → StepRes
    | .eval p, s =>
      match p with
      | .lit n => okR n s
      | .getVal node => go (.getValue node) s
      | .setVal node q =>
        bindR (go (.eval q) s) fun v s₁ => go (.setValue node v) s₁
      | .opAdd q r =>
        bindR (go (.eval q) s) fun a s₁ =>
          bindR (go (.eval r) s₁) fun b s₂ => okR (a + b) s₂
      | .opMul q r =>
        bindR (go (.eval q) s) fun a s₁ =>
          bindR (go (.eval r) s₁) fun b s₂ => okR (a * b) s₂
      | .opAnd q r =>
        bindR (go (.eval q) s) fun a s₁ =>
          bindR (go (.eval r) s₁) fun b s₂ => okR (Int.land a b) s₂
      | .iteEq q k t e =>
        bindR (go (.eval q) s) fun a s₁ =>
          if a = k then go (.eval t) s₁ else go (.eval e) s₁
      | .throwE e => errR e s
      | .seq q r =>
        bindR (go (.eval q) s) fun _ s₁ => go (.eval r) s₁
      | .logV q =>
        bindR (go (.eval q) s) fun v s₁ =>
          okR v { s₁ with log := s₁.log ++ [v] }
      | .untrackedP q => go (.untracked q) s
      | .runCtx t q => go (.runInContext t q) s
      | .batchP q => go (.batch q) s
      | .disposeP e =>
        bindR (go (.disposeEffect e) s) fun _ s₁ => okR 0 s₁
    | .runInContext t p, s =>
      if runningN (nodeAt s t) then errR .cyclic s
      else
        let parentTarget := s.currentTarget
        let parentIdx := s.sourceIndex
        let s₁ := { modifyNode s t (fun n => setRunningNode n true) with
                    currentTarget := some t, sourceIndex := 0 }
        match go (.eval p) s₁ with
        | none => none
        | some (res, s₂) =>
          match go (.truncateLoop t s₂.sourceIndex) s₂ with
          | none => none
          | some (tres, s₃) =>
            let s₄ := modifyNode s₃ t
              (fun n => setSourcesNode n ((sourcesN n).take s₃.sourceIndex))
            let s₅ := { modifyNode s₄ t (fun n => setRunningNode n false) with
                        currentTarget := parentTarget, sourceIndex := parentIdx }
            match tres with
            | .error e => errR e s₅
            | .ok _ =>
              match res with
              | .ok v => okR v s₅
              | .error e => errR e s₅
    | .truncateLoop t i, s =>
      let srcs := sourcesN (nodeAt s t)
      if i < srcs.length then
        bindR (go (.unsubscribe (srcs.getD i 0) t) s) fun _ s₁ =>
          go (.truncateLoop t (i + 1)) s₁
      else okR 0 s
    | .getValue src, s =>
      let trackedTarget : Option Nat :=
        match s.currentTarget with
        | some t =>
          if isDerivedN (nodeAt s t) || trackingN (nodeAt s t) then some t else none
        | none => none
      let afterTrack : StepRes :=
        match trackedTarget with
        | none => okR 0 s
        | some t =>
          let srcs := sourcesN (nodeAt s t)
          let idx := s.sourceIndex
          let prev := srcs.get? idx
          if prev = some src then okR 0 { s with sourceIndex := idx + 1 }
          else
            let s₁ := modifyNode s t
              (fun n => setSourcesNode n (listSetExtend (sourcesN n) idx src))
            let s₂ := subscribe s₁ src t
            match prev with
            | some pSrc =>
              bindR (go (.unsubscribe pSrc t) s₂) fun _ s₃ =>
                okR 0 { s₃ with sourceIndex := idx + 1 }
            | none => okR 0 { s₂ with sourceIndex := idx + 1 }
      bindR afterTrack fun _ s₁ =>
        let rb :=
          match s₁.currentTarget with
          | some t => isDerivedN (nodeAt s₁ t) && rollbackN (nodeAt s₁ t)
          | none => false
        match nodeAt s₁ src with
        | .value v => okR (if rb then v.committedValue else v.value) s₁
        | .derived dd =>
          if rb then
            match unwrapCache (cacheAt s₁ dd.committedValueRef) with
            | .ok n => okR n s₁
            | .error e => errR e s₁
          else
            bindR (go (.revalidate src) s₁) fun _ s₂ =>
              match nodeAt s₂ src with
              | .derived dd₂ =>
                match unwrapCache (cacheAt s₂ dd₂.valueRef) with
                | .ok n => okR n s₂
                | .error e => errR e s₂
              | _ => okR 0 s₂
        | .effect _ => okR 0 s₁
    | .setValue node v, s =>
      let derivedCtx :=
        match s.currentTarget with
        | some t => isDerivedN (nodeAt s t)
        | none => false
      if derivedCtx then errR .setInDerived s
      else
        match nodeAt s node with
        | .value vn =>
          if vn.value = v then okR v s
          else
            let s₁ := setNode s node (.value { vn with value := v })
            if s₁.status ≠ .batched then
              let s₂ := { s₁ with status := .active }
              let s₃ := setNode s₂ node (.value { vn with value := v, committedValue := v })
              bindR (go (.invalidate node) s₃) fun _ s₄ =>
                let s₅ := { s₄ with status := .inactive }
                bindR (go .cleanupNodes s₅) fun _ s₆ =>
                  bindR (go .runEffects s₆) fun _ s₇ => okR v s₇
            else if vn.committedValue = v then
              bindR (go (.uninvalidate node) s₁) fun _ s₂ => okR v s₂
            else
              bindR (go (.invalidate node) s₁) fun _ s₂ => okR v s₂
        | _ => okR v s
    | .invalidate src, s =>
      match nodeAt s src with
      | .derived dd =>
        if isInvalidatedN (.derived dd) then okR 0 s
        else if isUncommittedN (.derived dd) then go (.rollback src) s
        else go (.invalidateLoop src []) s
      | _ => go (.invalidateLoop src []) s
    | .invalidateLoop src visited, s =>
      match findUnvisited (targetsN (nodeAt s src)) visited with
      | none => okR 0 s
      | some (t, cnt) =>
        let core : StepRes :=
          if isDerivedN (nodeAt s t) then
            bindR (go (.invalidate t) s) fun _ s₁ =>
              go (.checkForDisposal t) s₁
          else
            okR 0 { s with invalidatedEffects := addSet s.invalidatedEffects t }
        bindR core fun _ s₂ =>
          let s₃ := modifyNode s₂ t (fun n => addCountNode n (cnt : Int))
          go (.invalidateLoop src (visited ++ [t])) s₃
    | .uninvalidate src, s => go (.uninvalidateLoop src []) s
    | .uninvalidateLoop src visited, s =>
      match findUnvisited (targetsN (nodeAt s src)) visited with
      | none => okR 0 s
      | some (t, cnt) =>
        let core : StepRes :=
          if isDerivedN (nodeAt s t) && isUncommittedN (nodeAt s t) then
            go (.rollback t) s
          else
            let s₁ := modifyNode s t (fun n => addCountNode n (-(cnt : Int)))
            if isDerivedN (nodeAt s₁ t) && !(isInvalidatedN (nodeAt s₁ t)) then
              go (.uninvalidate t) s₁
            else okR 0 s₁
        bindR core fun _ s₂ =>
          go (.uninvalidateLoop src (visited ++ [t])) s₂
    | .revalidate d, s =>
      match nodeAt s d with
      | .derived dd =>
        if !(isUninitC (cacheAt s dd.valueRef)) && !(isInvalidatedN (.derived dd)) then
          okR 0 s
        else
          let finallyReset : State → State := fun s' =>
            modifyNode s' d (fun n => setCountNode n 0)
          let runCatch : Err → State → StepRes := fun e s' =>
            match nodeAt s' d with
            | .derived dd' =>
              if isErrC (cacheAt s' dd'.valueRef) && !(isInvalidatedN (.derived dd')) then
                go (.uninvalidate d) s'
              else okR 0 (setDerivedError s' d e)
            | _ => okR 0 s'
          match go (.runInContext d dd.derive) s with
          | none => none
          | some (.ok v, s₁) =>
            let tryTail : StepRes :=
              match nodeAt s₁ d with
              | .derived dd₁ =>
                let unchanged :=
                  match cacheAt s₁ dd₁.valueRef with
                  | .val oldV => oldV == v || !(isInvalidatedN (.derived dd₁))
                  | _ => false
                if unchanged then go (.uninvalidate d) s₁
                else okR 0 (setDerivedValue s₁ d v)
              | _ => okR 0 s₁
            match tryTail with
            | none => none
            | some (.ok _, s₂) => okR 0 (finallyReset s₂)
            | some (.error e, s₂) =>
              match runCatch e s₂ with
              | none => none
              | some (.ok _, s₃) => okR 0 (finallyReset s₃)
              | some (.error e₂, s₃) => errR e₂ (finallyReset s₃)
          | some (.error e, s₁) =>
            match runCatch e s₁ with
            | none => none
            | some (.ok _, s₂) => okR 0 (finallyReset s₂)
            | some (.error e₂, s₂) => errR e₂ (finallyReset s₂)
      | _ => okR 0 s
    | .rollback d, s =>
      match nodeAt s d with
      | .derived dd =>
        let s₁ := setNode s d (.derived { dd with valueRef := dd.committedValueRef })
        let s₂ := modifyNode s₁ d (fun n => setRollbackNode n true)
        match go (.runInContext d dd.derive) s₂ with
        | none => none
        | some (res, s₃) =>
          let s₄ := modifyNode s₃ d (fun n => setRollbackNode n false)
          let s₅ := rescanCount s₄ d (sourcesN (nodeAt s₄ d))
          match res with
          | .error e => errR e s₅
          | .ok _ =>
            if !(isInvalidatedN (nodeAt s₅ d)) then go (.uninvalidate d) s₅
            else go (.rollbackLoop d []) s₅
      | _ => okR 0 s
    | .rollbackLoop d visited, s =>
      match findUnvisited (targetsN (nodeAt s d)) visited with
      | none => okR 0 s
      | some (t, _) =>
        let core : StepRes :=
          if isDerivedN (nodeAt s t) && isUncommittedN (nodeAt s t) then
            go (.rollback t) s
          else okR 0 s
        bindR core fun _ s₁ =>
          go (.rollbackLoop d (visited ++ [t])) s₁
    | .runEffects, s =>
      match s.invalidatedEffects with
      | [] => okR 0 s
      | e :: rest =>
        bindR (go (.runEffect e) { s with invalidatedEffects := rest }) fun _ s₁ =>
          go .runEffects s₁
    | .runEffect e, s =>
      match nodeAt s e with
      | .effect ed =>
        if !(isInvalidatedN (.effect ed)) then okR 0 s
        else
          bindR (go (.runEffectLoop e 0) s) fun early s₁ =>
            if early = 1 then okR 0 s₁
            else
              let s₂ := modifyNode s₁ e (fun n => setCountNode n 0)
              match nodeAt s₂ e with
              | .effect ed₂ =>
                bindR (go (.eval ed₂.notify) s₂) fun _ s₃ => okR 0 s₃
              | _ => okR 0 s₂
      | _ => okR 0 s
    | .runEffectLoop e i, s =>
      let srcs := sourcesN (nodeAt s e)
      if i < srcs.length then
        let src := srcs.getD i 0
        if isDerivedN (nodeAt s src) then
          bindR (go (.revalidate src) s) fun _ s₁ =>
            if !(isInvalidatedN (nodeAt s₁ e)) then okR 1 s₁
            else go (.runEffectLoop e (i + 1)) s₁
        else go (.runEffectLoop e (i + 1)) s
      else okR 0 s
    | .checkForDisposal d, s =>
      match nodeAt s d with
      | .derived dd =>
        if !(isInvalidatedN (.derived dd)) || dd.targets.length > 0 then okR 0 s
        else if s.status ≠ .inactive then
          okR 0 { s with
                  possiblyInvalidatedDerived := addSet s.possiblyInvalidatedDerived d }
        else
          bindR (go (.unsubscribeAllLoop d 0) s) fun _ s₁ =>
            let s₂ := setUninitialized s₁ d
            okR 0 (modifyNode s₂ d (fun n => setSourcesNode n []))
      | _ => okR 0 s
    | .unsubscribeAllLoop t i, s =>
      let srcs := sourcesN (nodeAt s t)
      if i < srcs.length then
        bindR (go (.unsubscribe (srcs.getD i 0) t) s) fun _ s₁ =>
          go (.unsubscribeAllLoop t (i + 1)) s₁
      else okR 0 s
    | .cleanupNodes, s =>
      match s.possiblyInvalidatedDerived with
      | [] => okR 0 s
      | d :: rest =>
        bindR (go (.checkForDisposal d)
                { s with possiblyInvalidatedDerived := rest }) fun _ s₁ =>
          go .cleanupNodes s₁
    | .unsubscribe src tgt, s =>
      let m := targetsN (nodeAt s src)
      match mapGet m tgt with
      | none => okR 0 s
      | some cnt =>
        if cnt = 0 then okR 0 s
        else if cnt > 1 then
          okR 0 (modifyNode s src (fun n => setTargetsNode n (mapSet m tgt (cnt - 1))))
        else
          let s₁ := modifyNode s src (fun n => setTargetsNode n (mapDel m tgt))
          if isDerivedN (nodeAt s₁ src) then go (.checkForDisposal src) s₁
          else okR 0 s₁
    | .batch p, s =>
      if s.status = .batched then go (.eval p) s
      else
        match go (.eval p) { s with status := .batched } with
        | none => none
        | some (res, s₁) =>
          let s₂ := commitSources { s₁ with status := .inactive }
          match go .cleanupNodes s₂ with
          | none => none
          | some (.error e₂, s₃) => errR e₂ s₃
          | some (.ok _, s₃) =>
            match go .runEffects s₃ with
            | none => none
            | some (.error e₃, s₄) => errR e₃ s₄
            | some (.ok _, s₄) =>
              match res with
              | .ok v => okR v s₄
              | .error e => errR e s₄
    | .untracked p, s =>
      match s.currentTarget with
      | some t =>
        if isDerivedN (nodeAt s t) then errR .untrackedInDerived s
        else if trackingN (nodeAt s t) then
          match go (.eval p) (modifyNode s t (fun n => setTrackingNode n false)) with
          | none => none
          | some (res, s₁) =>
            some (res, modifyNode s₁ t (fun n => setTrackingNode n true))
        else go (.eval p) s
      | none => go (.eval p) s
    | .disposeEffect e, s => go (.unsubscribeAllLoop e 0) s

def step : Nat → Call → State → StepRes
  | 0, _, _ => none
  | fuel + 1, c, s => stepBody (step fuel) c s

theorem step_succ (f : Nat) (c : Call) (s : State) :
    step (f + 1) c s = stepBody (step f) c s := rfl

/-- Run a top-level program (the test driver of a scenario). -/
def run (fuel : Nat) (p : Prog) (s : State) : StepRes :=
  step fuel (.eval p) s

/-! ### Scenario states

Concrete graphs used by the claims, built with the constructors that
mirror `makeValueNode` / `makeDerivedNode` / `makeEffectNode`. -/

/-- A single value cell initialized to `0`. -/
def oneCell : State := (makeValueNode initState 0).2

/-- Cell `v = 0` (node 0), derived `d = v * 2` (node 1), effect logging
`getValue(d)` (node 2), before the initial subscription run. -/
def vdeInit : State :=
  let s₁ := (makeValueNode initState 0).2
  let s₂ := (makeDerivedNode s₁ (.opMul (.getVal 0) (.lit 2))).2
  (makeEffectNode s₂ (.logV (.getVal 1))).2

/-- The `vdeInit` graph after the initial subscription run
`runInContext(effect, () => getValue(d))`: the effect tracks `d`, `d`
tracks `v`, and `d` caches `Value 0`. -/
def vdeSub : State :=
  ⟨[.value ⟨0, 0, [(1, 1)]⟩,
    .derived ⟨.opMul (.getVal 0) (.lit 2), 0, 0, [(2, 1)], [0], 0, false, false⟩,
    .effect ⟨.logV (.getVal 1), [1], 0, false, true⟩],
   [.val 0], none, 0, .inactive, [], [], [], []⟩

/-- The batch body used for the disposal claims: write `v := 1`, then
dispose the effect, both inside the transaction. -/
def disposeBody : Prog := .seq (.setVal 0 (.lit 1)) (.disposeP 2)

/-- The state reached by `disposeBody` just before settlement: the
effect is still pending with its invalidation count intact, and the
derived node sits in the deferred-disposal set. -/
def disposeMid : State :=
  ⟨[.value ⟨1, 0, [(1, 1)]⟩,
    .derived ⟨.opMul (.getVal 0) (.lit 2), 0, 0, [], [0], 1, false, false⟩,
    .effect ⟨.logV (.getVal 1), [1], 1, false, true⟩],
   [.val 0], none, 0, .batched, [], [2], [1], []⟩

/-- Effect node 0 (with an arbitrary callback) and derived node 1 whose
derive closure opens an effect frame with `runInContext` and calls
`untracked` inside it: a derived computation is then on the call stack
while the innermost frame is an effect frame. -/
def untrackedDeep : State :=
  let s₁ := (makeEffectNode initState (.lit 0)).2
  (makeDerivedNode s₁ (.runCtx 0 (.untrackedP (.lit 7)))).2

/-- Cell `c = 0` (node 0), derived `d3 = c + 7` (node 1), derived
`d2 = getValue(d3)` (node 2); neither derived node has ever been read,
so both caches are uninitialized and uncommitted. -/
def rollbackUninit : State :=
  let s₁ := (makeValueNode initState 0).2
  let s₂ := (makeDerivedNode s₁ (.opAdd (.getVal 0) (.lit 7))).2
  (makeDerivedNode s₂ (.getVal 1)).2

/-- Batch body for the rollback scenario: write `c := 5`, read `d2`
(computing both derived nodes against the draft), then revert `c` to
its committed value `0`, which triggers the rollback walk. -/
def rollbackBody : Prog :=
  .seq (.setVal 0 (.lit 5)) (.seq (.getVal 2) (.setVal 0 (.lit 0)))

/-- Cell `v = 0` (node 0) and derived node 1 whose derive closure
throws `user 42` while `v = 0` and returns `getValue(v)` otherwise. -/
def throwingDerived : State :=
  let s₁ := (makeValueNode initState 0).2
  (makeDerivedNode s₁ (.iteEq (.getVal 0) 0 (.throwE (.user 42)) (.getVal 0))).2

/-- State `throwingDerived` after the first read: the fault is cached as an
`Error` cache and the node is validated. -/
def throwingDerivedCached : State :=
  ⟨[.value ⟨0, 0, [(1, 1)]⟩,
    .derived ⟨.iteEq (.getVal 0) 0 (.throwE (.user 42)) (.getVal 0),
              0, 0, [], [0], 0, false, false⟩],
   [.err (.user 42)], none, 0, .inactive, [], [], [], []⟩

/-- A single derived node whose derive closure reads the node itself. -/
def selfCycle : State := (makeDerivedNode initState (.getVal 0)).2

/-! ### Helper lemmas about the state primitives -/

theorem nodeAt_lt_of_derived {s : State} {i : Nat} {dd : DerivedData}
    (h : nodeAt s i = .derived dd) : i < s.nodes.length := by
  by_contra hge
  have : s.nodes[i]? = none := List.getElem?_eq_none (by omega)
  simp [nodeAt, List.getD_eq_getElem?_getD, this] at h

theorem nodeAt_setNode_self {s : State} {i : Nat} {n : Node}
    (h : i < s.nodes.length) : nodeAt (setNode s i n) i = n := by
  simp [nodeAt, setNode, List.getD_eq_getElem?_getD, List.getElem?_set_self h]

theorem nodeAt_setNode_ne {s : State} {i j : Nat} {n : Node}
    (h : i ≠ j) : nodeAt (setNode s i n) j = nodeAt s j := by
  simp [nodeAt, setNode, List.getD_eq_getElem?_getD, List.getElem?_set_ne h]

theorem nodeAt_modifyNode_ne {s : State} {i j : Nat} {f : Node → Node}
    (h : i ≠ j) : nodeAt (modifyNode s i f) j = nodeAt s j :=
  nodeAt_setNode_ne h

theorem mapGet_mapDel_self (m : List (Nat × Nat)) (k : Nat) :
    mapGet (mapDel m k) k = none := by
  induction m with
  | nil => rfl
  | cons kv rest ih =>
    by_cases h : kv.1 = k <;> simp [mapDel, mapGet, List.find?, h] at ih ⊢

theorem cacheAt_setCacheObj_uninit (s : State) (i : Nat) :
    cacheAt (setCacheObj s i .uninit) i = .uninit := by
  by_cases h : i < s.caches.length
  · simp [cacheAt, setCacheObj, List.getD_eq_getElem?_getD, List.getElem?_set_self h]
  · have : (s.caches.set i CacheV.uninit) = s.caches := List.set_eq_of_length_le (by omega)
    simp [cacheAt, setCacheObj, this, List.getD_eq_getElem?_getD,
      List.getElem?_eq_none (show s.caches.length ≤ i by omega)]

theorem isDerivedN_eq_false_of_isEffectN {n : Node} (h : isEffectN n = true) :
    isDerivedN n = false := by
  cases n <;> simp_all [isEffectN, isDerivedN]

theorem isDerivedN_eq_false_of_isValueN {n : Node} (h : isValueN n = true) :
    isDerivedN n = false := by
  cases n <;> simp_all [isValueN, isDerivedN]

/-! ### Claim theorems -/

/-- C1: after `batch(() => setValue(v, 1))` on a cell initialized to
`0`, the code leaves `value = 1` but `committedValue = 0` with no
transaction open: `UPDATE.uncommittedSources` is never populated, so
the commit phase of settlement copies nothing and the documented
invariant `value === committedValue` outside a transaction is violated.
This contradicts the claim, whose intent the code documents itself
(`committedValue` "must be referentially equal to value when in
committed state"). -/
theorem c1_batch_commit_is_dead_code :
    run 50 (.batchP (.setVal 0 (.lit 1))) oneCell =
      some (.ok 1, ⟨[.value ⟨1, 0, []⟩], [], none, 0, .inactive, [], [], [], []⟩) ∧
    (nodeAt (⟨[.value ⟨1, 0, []⟩], [], none, 0, .inactive, [], [], [], []⟩ : State) 0 =
      .value ⟨1, 0, []⟩) ∧
    isUncommittedN (Node.value ⟨1, 0, []⟩) = true := by
  exact ⟨rfl, rfl, rfl⟩

/-- C2: on the subscribed graph `v = 0`, `d = v * 2`, effect logging
`getValue(d)`, the write `setValue(v, 0)` is a strict-equality no-op
leaving the whole state unchanged (hence no notification), and the
sequence `setValue(v,0); setValue(v,1); setValue(v,2)` produces exactly
the log `[2, 4]`, in that order and nothing else. -/
theorem c2_scenario_logs :
    run 50 (.runCtx 2 (.getVal 1)) vdeInit = some (.ok 0, vdeSub) ∧
    step 50 (.setValue 0 0) vdeSub = some (.ok 0, vdeSub) ∧
    (run 60 (.seq (.setVal 0 (.lit 0)) (.seq (.setVal 0 (.lit 1)) (.setVal 0 (.lit 2))))
        vdeSub).map (fun r : Except Err Int × State => (r.1, r.2.log)) =
      some (.ok 2, [2, 4]) := by
  exact ⟨rfl, rfl, rfl⟩

/-- C5 counterexample: `untracked` does not fault although a derived
computation is on the active call stack — reading the derived node
whose derive closure opens an effect frame (`runInContext`) and calls
`untracked` there succeeds with the closure's value instead of
signalling a context-misuse fault. -/
theorem c5_counterexample_no_fault_with_derived_on_stack :
    (run 50 (.getVal 1) untrackedDeep).map
        (fun r : Except Err Int × State => r.1) = some (.ok 7) := by
  exact rfl

/-- C6: the unwrap-uninitialized fault is reachable from the public
API: inside a batch, computing `d2 → d3` against a draft leaves both
committed caches uninitialized, and reverting the cell then rolls back
`d2`, whose re-derivation reads `d3` under the rollback flag and
unwraps `d3.committedValue` — still `Uninitialized` — so `getValue`
raises the unwrap-uninitialized fault, contradicting the claim that
this branch is unreachable. -/
theorem c6_unwrap_uninitialized_reachable :
    (run 80 (.batchP rollbackBody) rollbackUninit).map
        (fun r : Except Err Int × State => r.1) = some (.error .unwrapUninit) := by
  exact rfl

/-- C8: a derive-closure fault is cached like a value: the first read
raises `user 42` and stores an `Error` cache; a second read re-raises
the identical fault without touching the state at all; after
`setValue(v, 1)` invalidates the node, the next read recomputes and
returns `1`. -/
theorem c8_error_cached_and_reraised :
    run 50 (.getVal 1) throwingDerived = some (.error (.user 42), throwingDerivedCached) ∧
    run 50 (.getVal 1) throwingDerivedCached =
      some (.error (.user 42), throwingDerivedCached) ∧
    (run 50 (.seq (.setVal 0 (.lit 1)) (.getVal 1)) throwingDerivedCached).map
        (fun r : Except Err Int × State => r.1) = some (.ok 1) := by
  exact ⟨rfl, rfl, rfl⟩

/-- C10: `disposeEffect` only unsubscribes: after the batch body writes
`v := 1` and disposes the effect, the effect is still in the
pending-effects set with `invalidatedSourcesCount = 1` and its tracked
`sources` list intact (only its entry in `d.targets` is gone), and
running the whole batch still invokes the notify callback once,
logging `[2]`. -/
theorem c10_disposed_effect_still_notified :
    step 60 (.eval disposeBody) { vdeSub with status := .batched } =
      some (.ok 0, disposeMid) ∧
    disposeMid.invalidatedEffects = [2] ∧
    countN (nodeAt disposeMid 2) = 1 ∧
    sourcesN (nodeAt disposeMid 2) = [1] ∧
    targetsN (nodeAt disposeMid 1) = [] ∧
    (run 80 (.batchP disposeBody) vdeSub).map
        (fun r : Except Err Int × State => r.2.log) = some [2] := by
  exact ⟨rfl, rfl, rfl, rfl, rfl, rfl⟩

/-- C7: `invalidate` is idempotent for a derived target that is already
counted invalidated (`invalidatedSourcesCount > 0`) and has a committed
cache: on any state, the call returns immediately and the state is
completely unchanged — no subscriber count, no subscriber map and no
pending set is modified. -/
theorem c7_invalidate_idempotent (s : State) (d : Nat) (dd : DerivedData) (f : Nat)
    (hn : nodeAt s d = .derived dd)
    (hinv : dd.invalidatedSourcesCount > 0)
    (hcommitted : dd.valueRef = dd.committedValueRef) :
    step (f + 1) (.invalidate d) s = some (.ok 0, s) := by
  rw [step_succ]
  simp [stepBody, hn, isInvalidatedN, countN, hinv, okR]

/-- A state holding one invalidated derived node with a committed
cache, used to instantiate `c7_invalidate_idempotent`. -/
def c7State : State :=
  ⟨[.derived ⟨.lit 0, 0, 0, [(1, 1)], [], 1, false, false⟩],
   [.val 0], none, 0, .inactive, [], [], [], []⟩

theorem c7_witness :
    nodeAt c7State 0 = .derived ⟨.lit 0, 0, 0, [(1, 1)], [], 1, false, false⟩ ∧
    (1 : Int) > 0 ∧
    step 1 (.invalidate 0) c7State = some (.ok 0, c7State) :=
  ⟨rfl, by decide,
    c7_invalidate_idempotent c7State 0 ⟨.lit 0, 0, 0, [(1, 1)], [], 1, false, false⟩ 0
      rfl (by decide) rfl⟩

/-- C5 amended: `untracked` signals the context-misuse fault exactly
when the innermost active frame is a derived computation: if the
current target is derived it faults without running the closure, while
if the current target is a tracking effect frame — even one opened
inside a derived computation, which therefore sits deeper on the
stack — `untracked` runs the closure with tracking suppressed and
restores it, signalling nothing. -/
theorem c5_amended_innermost_frame_decides (s : State) (t : Nat) (p : Prog) (f : Nat)
    (hct : s.currentTarget = some t) :
    (isDerivedN (nodeAt s t) = true →
      step (f + 1) (.untracked p) s = some (.error .untrackedInDerived, s)) ∧
    (isEffectN (nodeAt s t) = true → trackingN (nodeAt s t) = true →
      step (f + 1) (.untracked p) s =
        match step f (.eval p) (modifyNode s t (fun n => setTrackingNode n false)) with
        | none => none
        | some (res, s₁) => some (res, modifyNode s₁ t (fun n => setTrackingNode n true))) := by
  constructor
  · intro hd
    rw [step_succ]
    simp [stepBody, hct, hd, errR]
  · intro he htr
    rw [step_succ]
    simp [stepBody, hct, isDerivedN_eq_false_of_isEffectN he, htr]

/-- A state whose current target is a derived frame, and one whose
current target is a tracking effect frame, instantiating both halves
of `c5_amended_innermost_frame_decides`. -/
def c5DerivedFrame : State :=
  ⟨[.derived ⟨.lit 0, 0, 0, [], [], 0, true, false⟩],
   [.uninit], some 0, 0, .inactive, [], [], [], []⟩

def c5EffectFrame : State :=
  ⟨[.effect ⟨.lit 0, [], 0, true, true⟩],
   [], some 0, 0, .inactive, [], [], [], []⟩

theorem c5_amended_witness :
    c5DerivedFrame.currentTarget = some 0 ∧
    isDerivedN (nodeAt c5DerivedFrame 0) = true ∧
    step 3 (.untracked (.lit 7)) c5DerivedFrame =
      some (.error .untrackedInDerived, c5DerivedFrame) ∧
    c5EffectFrame.currentTarget = some 0 ∧
    isEffectN (nodeAt c5EffectFrame 0) = true ∧
    step 3 (.untracked (.lit 7)) c5EffectFrame =
      some (.ok 7, modifyNode
        ((modifyNode c5EffectFrame 0 (fun n => setTrackingNode n false))) 0
        (fun n => setTrackingNode n true)) := by
  refine ⟨rfl, rfl, ?_, rfl, rfl, ?_⟩
  · exact (c5_amended_innermost_frame_decides c5DerivedFrame 0 (.lit 7) 2 rfl).1 rfl
  · have h := (c5_amended_innermost_frame_decides c5EffectFrame 0 (.lit 7) 2 rfl).2 rfl rfl
    rw [h]
    rfl

/-- Cell `v` (node 0); derived node 1 whose derive closure reads `v`
and returns the constant `0` (the spec's stability example `x & 0` is
constantly zero however `x` changes); effect node 2 logging
`getValue(d1)`. -/
def stableInit : State :=
  let s₁ := (makeValueNode initState 0).2
  let s₂ := (makeDerivedNode s₁ (.seq (.getVal 0) (.lit 0))).2
  (makeEffectNode s₂ (.logV (.getVal 1))).2

/-- The stable graph after the initial subscription run, with the cell
holding `k`: the derived cache is `Value 0`, every count is zero, the
pending sets and the log are empty. -/
def stableSt (k : Int) : State :=
  ⟨[.value ⟨k, k, [(1, 1)]⟩,
    .derived ⟨.seq (.getVal 0) (.lit 0), 0, 0, [(2, 1)], [0], 0, false, false⟩,
    .effect ⟨.logV (.getVal 1), [1], 0, false, true⟩],
   [.val 0], none, 0, .inactive, [], [], [], []⟩

/-- One-level unfolding of `setValue` for a fresh value written to a
value node outside a batch and outside any tracking frame: write the
draft, then run the single-write settlement — status Active, commit,
invalidate, status Inactive, disposal sweep, effect flush. -/
theorem setValue_unbatched (f : Nat) (node : Nat) (v : Int) (s : State) (vn : ValueData)
    (hct : s.currentTarget = none)
    (hn : nodeAt s node = .value vn)
    (hne : vn.value ≠ v)
    (hst : s.status ≠ .batched) :
    step (f + 1) (.setValue node v) s =
      bindR (step f (.invalidate node)
          (setNode { setNode s node (.value { vn with value := v }) with
                     status := .active }
            node (.value { vn with value := v, committedValue := v }))) fun _ s₄ =>
        bindR (step f .cleanupNodes { s₄ with status := .inactive }) fun _ s₆ =>
          bindR (step f .runEffects s₆) fun _ s₇ => okR v s₇ := by
  rw [step_succ]
  simp only [stepBody, hct, hn]
  rw [if_neg hne, if_neg (by simp)]
  have hb : (setNode s node (Node.value { vn with value := v })).status ≠
      UpdateStatus.batched := hst
  rw [if_pos hb]

/-- A single un-batched write of an arbitrary value to the stable
graph's cell returns to the same family of states with the log, the
invalidation counts, the cache and all subscriptions untouched: the
derived node recomputes to the identical value `0`, `revalidate` takes
the `uninvalidate` branch, and the pending effect resolves without its
callback ever running. -/
theorem stable_write (k x : Int) :
    step 30 (.setValue 0 x) (stableSt k) = some (.ok x, stableSt x) := by
  by_cases h : k = x
  · subst h
    rw [step_succ]
    simp [stepBody, stableSt, nodeAt, okR]
  · rw [setValue_unbatched 29 0 x (stableSt k) ⟨k, k, [(1, 1)]⟩ rfl rfl h (by simp [stableSt])]
    rfl

/-- Apply a list of un-batched writes to the stable graph's cell, each
with fuel 30 (every single write settles within that call depth). -/
def applyWrites : List Int → State → Option State
  | [], s => some s
  | x :: xs, s =>
    match step 30 (.setValue 0 x) s with
    | some (.ok _, s') => applyWrites xs s'
    | _ => none

theorem applyWrites_stable : ∀ (xs : List Int) (k : Int),
    applyWrites xs (stableSt k) = some (stableSt (xs.getLastD k)) := by
  intro xs
  induction xs with
  | nil => intro k; rfl
  | cons x xs ih =>
    intro k
    show (match step 30 (.setValue 0 x) (stableSt k) with
          | some (.ok _, s') => applyWrites xs s'
          | _ => none) = _
    rw [stable_write k x, List.getLastD_cons]
    exact ih x

/-- C3: stability short-circuit.  On the graph `v`, `d1` (a derived
node whose output is constantly `0` while reading `v`), and an effect
observing `d1`, the initial run subscribes everything, and then for
EVERY sequence of un-batched writes to `v` the system returns to the
stable family of states: the log stays empty (no downstream effect is
ever notified), the effect's and the derived node's invalidation
counts are back to zero (dependents are not left invalidated), and the
derived cache still holds the original `Value 0` — the unchanged
recomputation took the `uninvalidate` branch instead of storing a new
value, regardless of how often the upstream source changed. -/
theorem c3_stability_shortcircuit (xs : List Int) :
    run 50 (.runCtx 2 (.getVal 1)) stableInit = some (.ok 0, stableSt 0) ∧
    ∃ k, applyWrites xs (stableSt 0) = some (stableSt k) ∧
      (stableSt k).log = [] ∧
      countN (nodeAt (stableSt k) 1) = 0 ∧
      countN (nodeAt (stableSt k) 2) = 0 ∧
      cacheAt (stableSt k) 0 = .val 0 ∧
      targetsN (nodeAt (stableSt k) 0) = [(1, 1)] ∧
      targetsN (nodeAt (stableSt k) 1) = [(2, 1)] :=
  ⟨rfl, xs.getLastD 0, applyWrites_stable xs 0, rfl, rfl, rfl, rfl, rfl, rfl⟩

/-! ### C9: cycle detection -/

/-- States in which node 0 is a committed derived node subscribed to
itself with multiplicity 1 and a non-positive invalidation count: the
configuration produced by reading a directly self-reading derived node,
at the moment `revalidate`'s catch branch starts the `uninvalidate`
walk. -/
def selfLoopBad (s : State) : Prop :=
  ∃ dd : DerivedData, nodeAt s 0 = .derived dd ∧ dd.targets = [(0, 1)] ∧
    dd.valueRef = dd.committedValueRef ∧ dd.invalidatedSourcesCount ≤ 0

/-- On a `selfLoopBad` state the `uninvalidate` walk never terminates:
each pass over the self-subscription decrements the count below zero,
finds the node "no longer invalidated", and recurses into itself, so
the walk exhausts every fuel budget. -/
theorem uninvalidate_selfloop_diverges (f : Nat) :
    (∀ s, selfLoopBad s → step f (.uninvalidate 0) s = none) ∧
    (∀ s, selfLoopBad s → step f (.uninvalidateLoop 0 []) s = none) := by
  induction f with
  | zero => exact ⟨fun s _ => rfl, fun s _ => rfl⟩
  | succ g ih =>
    constructor
    · intro s hb
      rw [step_succ]
      exact ih.2 s hb
    · intro s hb
      obtain ⟨dd, hn, htg, hcom, hcnt⟩ := hb
      have hlt : 0 < s.nodes.length := nodeAt_lt_of_derived hn
      rw [step_succ]
      simp only [stepBody, hn, targetsN, htg]
      rw [show findUnvisited [(0, 1)] [] = some (0, 1) from rfl]
      have h1 : (isDerivedN (nodeAt s 0) && isUncommittedN (nodeAt s 0)) = false := by
        rw [hn]; simp [isDerivedN, isUncommittedN, hcom]
      have hns : nodeAt (modifyNode s 0 (fun n => addCountNode n (-((1 : Nat) : Int)))) 0 =
          .derived { dd with invalidatedSourcesCount := dd.invalidatedSourcesCount - 1 } := by
        rw [modifyNode, hn, nodeAt_setNode_self hlt]
        simp [addCountNode, setCountNode, countN, sub_eq_add_neg]
      have hbad : selfLoopBad (modifyNode s 0 (fun n => addCountNode n (-((1 : Nat) : Int)))) :=
        ⟨_, hns, by simpa using htg, hcom, by simp; omega⟩
      have hrec : step g (.uninvalidate 0)
          (modifyNode s 0 (fun n => addCountNode n (-((1 : Nat) : Int)))) = none := ih.1 _ hbad
      have h2 : (isDerivedN (nodeAt (modifyNode s 0 (fun n => addCountNode n (-((1 : Nat) : Int)))) 0) &&
          !isInvalidatedN (nodeAt (modifyNode s 0 (fun n => addCountNode n (-((1 : Nat) : Int)))) 0)) = true := by
        rw [hns]; simp [isDerivedN, isInvalidatedN, countN]; omega
      simp only [h1, h2, Bool.false_eq_true, if_false, if_true, hrec]
      rfl

set_option maxHeartbeats 4000000 in
/-- Reading the self-reading derived node with any fuel of the shape
`g + 10` runs the deterministic prefix — the inner read hits the
running-flag guard, the CyclicDependency fault is cached as an `Error`
cache, and `revalidate`'s catch branch calls `uninvalidate` on the
self-subscribed node — and then diverges. -/
theorem selfcycleDivergesBeyond (g : Nat) : run (g + 10) (.getVal 0) selfCycle = none := by
  have h10 : ∀ c s, step (g + 10) c s = stepBody (step (g + 9)) c s := fun _ _ => rfl
  have h9 : ∀ c s, step (g + 9) c s = stepBody (step (g + 8)) c s := fun _ _ => rfl
  have h8 : ∀ c s, step (g + 8) c s = stepBody (step (g + 7)) c s := fun _ _ => rfl
  have h7 : ∀ c s, step (g + 7) c s = stepBody (step (g + 6)) c s := fun _ _ => rfl
  have h6 : ∀ c s, step (g + 6) c s = stepBody (step (g + 5)) c s := fun _ _ => rfl
  have h5 : ∀ c s, step (g + 5) c s = stepBody (step (g + 4)) c s := fun _ _ => rfl
  have h4 : ∀ c s, step (g + 4) c s = stepBody (step (g + 3)) c s := fun _ _ => rfl
  have h3 : ∀ c s, step (g + 3) c s = stepBody (step (g + 2)) c s := fun _ _ => rfl
  have h2 : ∀ c s, step (g + 2) c s = stepBody (step (g + 1)) c s := fun _ _ => rfl
  have h1 : ∀ c s, step (g + 1) c s = stepBody (step g) c s := fun _ _ => rfl
  have hdivL : ∀ s, selfLoopBad s → step g (.uninvalidateLoop 0 []) s = none :=
    fun s hs => (uninvalidate_selfloop_diverges g).2 s hs
  have hstuck : step g (.uninvalidateLoop 0 [])
      ⟨[.derived ⟨.getVal 0, 0, 0, [(0, 1)], [0], -3, false, false⟩],
       [.err .cyclic], none, 0, .inactive, [], [], [], []⟩ = none :=
    hdivL _ ⟨⟨.getVal 0, 0, 0, [(0, 1)], [0], -3, false, false⟩, rfl, rfl, rfl, by decide⟩
  simp [hstuck, run, h10, h9, h8, h7, h6, h5, h4, h3, h2, h1, stepBody, selfCycle,
    makeDerivedNode, allocCache, initState, bindR, okR, errR, nodeAt, setNode, modifyNode,
    cacheAt, setCacheObj, subscribe, mapGet, mapSet, mapDel, findUnvisited, addSet,
    listSetExtend, setDerivedValue, setDerivedError, setUninitialized, unwrapCache,
    isUninitC, isErrC, isDerivedN, isEffectN, isValueN, runningN, trackingN, rollbackN,
    countN, targetsN, sourcesN, isInvalidatedN, isUncommittedN, setRunningNode,
    setTrackingNode, setRollbackNode, setCountNode, addCountNode, setTargetsNode,
    setSourcesNode]

/-- C9 counterexample: `getValue` of a derived node whose derive
closure reads that same node does NOT raise CyclicDependency to the
caller: at the concrete call depth 1000 — vastly beyond the one-node
graph's needs — the read still has not returned any outcome (the
cached cyclic fault sends the cleanup walk into unbounded recursion
through the node's self-subscription; `selfcycleDivergesBeyond` shows
the same for every depth of the form `g + 10`). -/
theorem c9_counterexample_self_read_diverges :
    run 1000 (.getVal 0) selfCycle = none :=
  selfcycleDivergesBeyond 990

/-- C9 amended: entering evaluation of a target whose running flag is
already set raises CyclicDependency with the state untouched — that
half of the claim holds on every state.  However, `getValue` of a
directly self-reading derived node does not surface that fault: the
cyclic fault is cached in the node, and the subsequent `uninvalidate`
walk over the self-subscription recurses without bound, so the read
diverges (a stack overflow at runtime) instead of returning the
CyclicDependency fault. -/
theorem c9_amended_running_guard_and_divergence :
    (∀ (s : State) (t : Nat) (p : Prog) (f : Nat), runningN (nodeAt s t) = true →
      step (f + 1) (.runInContext t p) s = some (.error .cyclic, s)) ∧
    (∀ f : Nat, run f (.getVal 0) selfCycle = none) := by
  constructor
  · intro s t p f h
    rw [step_succ]
    simp [stepBody, h, errR]
  · intro f
    by_cases h : f < 10
    · interval_cases f <;> rfl
    · obtain ⟨g, rfl⟩ : ∃ g, f = g + 10 := ⟨f - 10, by omega⟩
      exact selfcycleDivergesBeyond g

/-- A state whose node 0 is a derived node that is currently running,
instantiating the CyclicDependency guard of the amended C9 claim. -/
def runningDerived : State :=
  ⟨[.derived ⟨.lit 0, 0, 0, [], [], 0, true, false⟩],
   [.uninit], some 0, 1, .inactive, [], [], [], []⟩

theorem c9_amended_witness :
    runningN (nodeAt runningDerived 0) = true ∧
    step 1 (.runInContext 0 (.lit 5)) runningDerived =
      some (.error .cyclic, runningDerived) :=
  ⟨rfl, (c9_amended_running_guard_and_divergence).1 runningDerived 0 (.lit 5) 0 rfl⟩


theorem nodeAt_of_length_le {s : State} {i : Nat} (h : s.nodes.length ≤ i) :
    nodeAt s i = .value ⟨0, 0, []⟩ := by
  simp [nodeAt, List.getD_eq_getElem?_getD, List.getElem?_eq_none h]

theorem targetsN_setTargetsNode_of_isValueN {n : Node} (h : isValueN n = true)
    (m : List (Nat × Nat)) : targetsN (setTargetsNode n m) = m := by
  cases n <;> simp_all [isValueN, setTargetsNode, targetsN]

theorem isValueN_setTargetsNode (n : Node) (m : List (Nat × Nat)) :
    isValueN (setTargetsNode n m) = isValueN n := by
  cases n <;> simp [isValueN, setTargetsNode]

/-- Unsubscribing a derived node `d` from a single value-node upstream
`u` whose subscriber map holds `d` with count 1 deletes the entry and
recurses nowhere. -/
theorem unsubscribe_value_one {s : State} {u d : Nat} (f : Nat)
    (hval : isValueN (nodeAt s u) = true)
    (hmap : mapGet (targetsN (nodeAt s u)) d = some 1) :
    step (f + 1) (.unsubscribe u d) s =
      some (.ok 0, modifyNode s u
        (fun n => setTargetsNode n (mapDel (targetsN (nodeAt s u)) d))) := by
  have hu : u < s.nodes.length := by
    by_contra hge
    rw [nodeAt_of_length_le (by omega)] at hmap
    simp [targetsN, mapGet] at hmap
  rw [step_succ]
  simp only [stepBody, hmap]
  rw [if_neg (by omega), if_neg (by omega)]
  have hval' : isValueN (nodeAt (modifyNode s u
      (fun n => setTargetsNode n (mapDel (targetsN (nodeAt s u)) d))) u) = true := by
    rw [modifyNode, nodeAt_setNode_self hu, isValueN_setTargetsNode]
    exact hval
  rw [if_neg (by simp [isDerivedN_eq_false_of_isValueN hval'])]
  rfl

/-- Unsubscribing from an upstream whose map has no entry for the
target is a no-op. -/
theorem unsubscribe_absent {s : State} {u d : Nat} (f : Nat)
    (hmap : mapGet (targetsN (nodeAt s u)) d = none) :
    step (f + 1) (.unsubscribe u d) s = some (.ok 0, s) := by
  rw [step_succ]
  simp only [stepBody, hmap]
  rfl



/-- Hypothesis bundle for the disposal loop: every tracked upstream of
`d` is a value node whose subscriber map holds `d` with count 1 or not
at all. -/
def valueSources (s : State) (d : Nat) (l : List Nat) : Prop :=
  ∀ u ∈ l, isValueN (nodeAt s u) = true ∧
    (mapGet (targetsN (nodeAt s u)) d = some 1 ∨
     mapGet (targetsN (nodeAt s u)) d = none)

/-- The `checkForDisposal` loop over `derived.sources` removes the
derived node's entry from every upstream subscriber map, touching
neither the node itself, the cache heap, nor the transaction status. -/
theorem detachValueSources (d : Nat) (dd : DerivedData) :
    ∀ (n f i : Nat) (s : State),
      nodeAt s d = .derived dd →
      dd.sources.length - i = n →
      valueSources s d dd.sources →
      ∃ s' : State,
        step (f + n + 1) (.unsubscribeAllLoop d i) s = some (.ok 0, s') ∧
        nodeAt s' d = .derived dd ∧
        s'.caches = s.caches ∧ s'.status = s.status ∧ s'.nodes.length = s.nodes.length ∧
        (∀ u ∈ dd.sources.drop i, mapGet (targetsN (nodeAt s' u)) d = none) ∧
        (∀ u, mapGet (targetsN (nodeAt s u)) d = none →
          mapGet (targetsN (nodeAt s' u)) d = none) := by
  intro n
  induction n with
  | zero =>
    intro f i s hn hlen hsrc
    refine ⟨s, ?_, hn, rfl, rfl, rfl, ?_, fun u h => h⟩
    · rw [show f + 0 + 1 = f + 1 from rfl, step_succ]
      simp only [stepBody, hn, sourcesN]
      rw [if_neg (by omega)]
      rfl
    · intro u hu
      rw [List.drop_eq_nil_of_le (by omega)] at hu
      simp at hu
  | succ m ihm =>
    intro f i s hn hlen hsrc
    have hi : i < dd.sources.length := by omega
    have hgetd : dd.sources.getD i 0 = dd.sources[i] := by
      rw [List.getD_eq_getElem?_getD, List.getElem?_eq_getElem hi]
      rfl
    have humem : dd.sources.getD i 0 ∈ dd.sources := by
      rw [hgetd]; exact List.getElem_mem hi
    obtain ⟨hval, hmap⟩ := hsrc _ humem
    have hne : dd.sources.getD i 0 ≠ d := by
      intro he
      rw [he, hn] at hval
      simp [isValueN] at hval
    -- entry unfolding of the loop
    have hentry : step (f + (m + 1) + 1) (.unsubscribeAllLoop d i) s =
        bindR (step (f + m + 1) (.unsubscribe (dd.sources.getD i 0) d) s)
          (fun _ s₁ => step (f + m + 1) (.unsubscribeAllLoop d (i + 1)) s₁) := by
      rw [show f + (m + 1) + 1 = (f + m + 1) + 1 from rfl, step_succ]
      simp only [stepBody, hn, sourcesN]
      rw [if_pos hi]
    rcases hmap with hmap | hmap
    · -- the entry is present with count 1 and gets deleted
      set u := dd.sources.getD i 0 with hudef
      set s₁ := modifyNode s u
        (fun n => setTargetsNode n (mapDel (targetsN (nodeAt s u)) d)) with hs₁
      have hul : u < s.nodes.length := by
        by_contra hge
        rw [nodeAt_of_length_le (by omega)] at hmap
        simp [targetsN, mapGet] at hmap
      have hstep₁ : step (f + m + 1) (.unsubscribe u d) s = some (.ok 0, s₁) :=
        unsubscribe_value_one (f + m) hval hmap
      have hnodeu : nodeAt s₁ u = setTargetsNode (nodeAt s u) (mapDel (targetsN (nodeAt s u)) d) := by
        rw [hs₁, modifyNode, nodeAt_setNode_self hul]
      have hnd : nodeAt s₁ d = .derived dd := by
        rw [hs₁, nodeAt_modifyNode_ne hne]; exact hn
      have hmapu : mapGet (targetsN (nodeAt s₁ u)) d = none := by
        rw [hnodeu, targetsN_setTargetsNode_of_isValueN hval, mapGet_mapDel_self]
      have hpres₁ : ∀ u₀, mapGet (targetsN (nodeAt s u₀)) d = none →
          mapGet (targetsN (nodeAt s₁ u₀)) d = none := by
        intro u₀ h₀
        by_cases he : u = u₀
        · rw [← he]; exact hmapu
        · rw [hs₁, nodeAt_modifyNode_ne he]; exact h₀
      have hsrc₁ : valueSources s₁ d dd.sources := by
        intro u₀ hu₀
        obtain ⟨hval₀, hmap₀⟩ := hsrc u₀ hu₀
        by_cases he : u = u₀
        · subst he
          refine ⟨?_, Or.inr hmapu⟩
          rw [hnodeu, isValueN_setTargetsNode]; exact hval
        · rw [hs₁, nodeAt_modifyNode_ne he]
          exact ⟨hval₀, hmap₀⟩
      obtain ⟨s', hstep', hd', hc', hst', hlen', hdrop', hpres'⟩ :=
        ihm f (i + 1) s₁ hnd (by omega) hsrc₁
      refine ⟨s', ?_, hd', ?_, ?_, ?_, ?_, ?_⟩
      · rw [hentry, hstep₁]
        exact hstep'
      · rw [hc']; rfl
      · rw [hst']; rfl
      · rw [hlen', hs₁, modifyNode, setNode]
        simp
      · intro u₀ hu₀
        rw [List.drop_eq_getElem_cons hi] at hu₀
        rcases List.mem_cons.mp hu₀ with he | hu₀
        · rw [he, ← hgetd]
          exact hpres' _ hmapu
        · exact hdrop' _ hu₀
      · intro u₀ h₀
        exact hpres' _ (hpres₁ _ h₀)
    · -- the entry is already absent: the unsubscribe is a no-op
      have hstep₁ : step (f + m + 1) (.unsubscribe (dd.sources.getD i 0) d) s =
          some (.ok 0, s) := unsubscribe_absent (f + m) hmap
      obtain ⟨s', hstep', hd', hc', hst', hlen', hdrop', hpres'⟩ :=
        ihm f (i + 1) s hn (by omega) hsrc
      refine ⟨s', ?_, hd', hc', hst', hlen', ?_, hpres'⟩
      · rw [hentry, hstep₁]
        exact hstep'
      · intro u₀ hu₀
        rw [List.drop_eq_getElem_cons hi] at hu₀
        rcases List.mem_cons.mp hu₀ with he | hu₀
        · rw [he, ← hgetd]
          exact hpres' _ hmap
        · exact hdrop' _ hu₀



/-- The unsubscribe-triggered half of the disposal story: when a
derived node that is counted invalidated loses its last subscription
(its subscriber map holds exactly one entry with count 1) and its
tracked upstreams are value nodes, then: with no transaction or
settlement active (status Inactive) disposal happens immediately — the
node's entry disappears from every upstream subscriber map, its cache
is reset to `Uninitialized`, and its `sources` list is cleared; when
the same condition is discovered during a transaction (status Batched),
the state change is only the dropped subscription plus the node being
added to the deferred-disposal set.  The invalidation-triggered half
fails on the code: see the C4 theorem below. -/
theorem c4_disposal_immediate_or_deferred (s : State) (d t : Nat) (dd : DerivedData) (f : Nat)
    (hn : nodeAt s d = .derived dd)
    (hinv : dd.invalidatedSourcesCount > 0)
    (htg : dd.targets = [(t, 1)])
    (hsrc : valueSources s d dd.sources) :
    (s.status = .inactive →
      ∃ s', step (f + dd.sources.length + 3) (.unsubscribe d t) s = some (.ok 0, s') ∧
        (∀ u ∈ dd.sources, mapGet (targetsN (nodeAt s' u)) d = none) ∧
        ∃ dd', nodeAt s' d = .derived dd' ∧ dd'.sources = [] ∧
          cacheAt s' dd'.valueRef = .uninit) ∧
    (s.status = .batched →
      step (f + 3) (.unsubscribe d t) s =
        some (.ok 0, { setNode s d (.derived { dd with targets := [] }) with
          possiblyInvalidatedDerived := addSet s.possiblyInvalidatedDerived d })) := by
  have hd : d < s.nodes.length := nodeAt_lt_of_derived hn
  -- the unsubscribe drops the last subscription and hands over to checkForDisposal
  have huns : ∀ F : Nat, step (F + 1) (.unsubscribe d t) s =
      step F (.checkForDisposal d) (setNode s d (.derived { dd with targets := [] })) := by
    intro F
    rw [step_succ]
    simp only [stepBody, hn, targetsN, htg]
    have hget : mapGet [(t, 1)] t = some 1 := by simp [mapGet]
    have hdel : mapDel [(t, 1)] t = [] := by simp [mapDel]
    have hmod : modifyNode s d (fun n => setTargetsNode n []) =
        setNode s d (.derived { dd with targets := [] }) := by
      rw [modifyNode, hn]
      rfl
    simp only [hget, hdel, hmod]
    rw [if_neg (by omega), if_neg (by omega)]
    rw [if_pos (by rw [nodeAt_setNode_self hd]; rfl)]
  set s₁ := setNode s d (.derived { dd with targets := [] }) with hs₁
  have hn₁ : nodeAt s₁ d = .derived { dd with targets := [] } := nodeAt_setNode_self hd
  have hc1 : (!isInvalidatedN (Node.derived { dd with targets := [] }) ||
      decide (({ dd with targets := [] } : DerivedData).targets.length > 0)) = false := by
    simp [isInvalidatedN, countN]
    omega
  constructor
  · -- status Inactive: immediate disposal
    intro hst
    have hst₁ : s₁.status = UpdateStatus.inactive := by
      rw [hs₁]; exact hst
    have hcheck : step (f + dd.sources.length + 2) (.checkForDisposal d) s₁ =
        bindR (step (f + dd.sources.length + 1) (.unsubscribeAllLoop d 0) s₁)
          (fun _ s₂ => okR 0 (modifyNode (setUninitialized s₂ d) d
            (fun n => setSourcesNode n []))) := by
      rw [show f + dd.sources.length + 2 = (f + dd.sources.length + 1) + 1 from rfl, step_succ]
      simp only [stepBody, hn₁, hc1, hst₁]
      rfl
    have hsrc₁ : valueSources s₁ d dd.sources := by
      intro u hu
      obtain ⟨hval, hmap⟩ := hsrc u hu
      have hne : d ≠ u := by
        intro he
        rw [← he, hn] at hval
        simp [isValueN] at hval
      rw [hs₁, show setNode s d (.derived { dd with targets := [] }) =
        modifyNode s d (fun _ => .derived { dd with targets := [] }) from rfl,
        nodeAt_modifyNode_ne hne]
      exact ⟨hval, hmap⟩
    obtain ⟨s₂, hstep₂, hd₂, hc₂, hstat₂, hlen₂, hdrop₂, _⟩ :=
      detachValueSources d { dd with targets := [] } dd.sources.length f 0 s₁ hn₁
        (by simp) hsrc₁
    have hd₂lt : d < s₂.nodes.length := nodeAt_lt_of_derived hd₂
    have hstat₂' : s₂.status = UpdateStatus.inactive := by
      rw [hstat₂]; exact hst₁
    have hunin : setUninitialized s₂ d = setCacheObj s₂ dd.valueRef .uninit := by
      rw [setUninitialized, hd₂]
      simp [hstat₂']
    refine ⟨modifyNode (setCacheObj s₂ dd.valueRef .uninit) d (fun n => setSourcesNode n []),
      ?_, ?_, ⟨{ dd with targets := [], sources := [] }, ?_, rfl, ?_⟩⟩
    · rw [show f + dd.sources.length + 3 = (f + dd.sources.length + 2) + 1 from rfl,
        huns, hcheck, hstep₂]
      simp only [bindR, okR, hunin]
    · intro u hu
      have hne : d ≠ u := by
        intro he
        obtain ⟨hval, _⟩ := hsrc u hu
        rw [← he, hn] at hval
        simp [isValueN] at hval
      rw [nodeAt_modifyNode_ne hne]
      have hcach : nodeAt (setCacheObj s₂ dd.valueRef .uninit) u = nodeAt s₂ u := by
        simp [nodeAt, setCacheObj]
      rw [hcach]
      exact hdrop₂ u (by simpa using hu)
    · have hcd : nodeAt (setCacheObj s₂ dd.valueRef .uninit) d =
          .derived { dd with targets := [] } := by
        simpa [nodeAt, setCacheObj] using hd₂
      rw [modifyNode, hcd, nodeAt_setNode_self (by simpa [setCacheObj] using hd₂lt)]
      rfl
    · show cacheAt _ ({ dd with targets := [], sources := [] } : DerivedData).valueRef = .uninit
      have hproj : (modifyNode (setCacheObj s₂ dd.valueRef .uninit) d
          (fun n => setSourcesNode n [])).caches =
          (setCacheObj s₂ dd.valueRef .uninit).caches := rfl
      rw [cacheAt, hproj, ← cacheAt]
      exact cacheAt_setCacheObj_uninit s₂ dd.valueRef
  · -- status Batched: deferred to the pending set
    intro hst
    have hst₁ : s₁.status = UpdateStatus.batched := by
      rw [hs₁]; exact hst
    rw [show f + 3 = (f + 2) + 1 from rfl, huns,
      show f + 2 = (f + 1) + 1 from rfl, step_succ]
    simp only [stepBody, hn₁, hc1, hst₁]
    rfl


/-- A derived node 0 (invalidated, count 1, sole subscriber effect 1,
one value-node upstream 2) for instantiating the disposal theorem. -/
def c4StInactive : State :=
  ⟨[.derived ⟨.getVal 2, 0, 0, [(1, 1)], [2], 1, false, false⟩,
    .effect ⟨.lit 0, [0], 1, false, true⟩,
    .value ⟨5, 5, [(0, 1)]⟩],
   [.val 5], none, 0, .inactive, [], [], [], []⟩

def c4StBatched : State := { c4StInactive with status := .batched }

theorem c4_witness :
    c4StInactive.status = .inactive ∧ c4StBatched.status = .batched ∧
    (1 : Int) > 0 ∧
    (∃ s', step 4 (.unsubscribe 0 1) c4StInactive = some (.ok 0, s') ∧
      (∀ u ∈ [2], mapGet (targetsN (nodeAt s' u)) 0 = none) ∧
      ∃ dd', nodeAt s' 0 = .derived dd' ∧ dd'.sources = [] ∧
        cacheAt s' dd'.valueRef = .uninit) ∧
    step 3 (.unsubscribe 0 1) c4StBatched =
      some (.ok 0, { setNode c4StBatched 0
          (.derived ⟨.getVal 2, 0, 0, [], [2], 1, false, false⟩) with
        possiblyInvalidatedDerived := addSet c4StBatched.possiblyInvalidatedDerived 0 }) := by
  refine ⟨rfl, rfl, by decide, ?_, ?_⟩
  · exact (c4_disposal_immediate_or_deferred c4StInactive 0 1
      ⟨.getVal 2, 0, 0, [(1, 1)], [2], 1, false, false⟩ 0 rfl (by decide) rfl
      (by unfold valueSources; decide)).1 rfl
  · exact (c4_disposal_immediate_or_deferred c4StBatched 0 1
      ⟨.getVal 2, 0, 0, [(1, 1)], [2], 1, false, false⟩ 0 rfl (by decide) rfl
      (by unfold valueSources; decide)).2 rfl

/-- The graph of the repository's own test "should dispose the
invalidated derived node": cell `s = 1` (node 0) and derived
`d = getValue(s)` (node 1). -/
def dispGraph : State :=
  let s₁ := (makeValueNode initState 1).2
  (makeDerivedNode s₁ (.getVal 0)).2

/-- State `dispGraph` after the top-level `getValue(d)`: `d` tracks `s` but
has zero subscribers of its own. -/
def dispGraphRead : State :=
  ⟨[.value ⟨1, 1, [(1, 1)]⟩,
    .derived ⟨.getVal 0, 0, 0, [], [0], 0, false, false⟩],
   [.val 1], none, 0, .inactive, [], [], [], []⟩

/-- State `dispGraphRead` after `setValue(s, 2)`: the derived node is left
invalidated with zero subscribers and nothing pending, yet undisposed. -/
def dispGraphLeaked : State :=
  ⟨[.value ⟨2, 2, [(1, 1)]⟩,
    .derived ⟨.getVal 0, 0, 0, [], [0], 1, false, false⟩],
   [.val 1], none, 0, .inactive, [], [], [], []⟩

/-- C4: the code misses the disposal the claim (and the repository's
own test "should dispose the invalidated derived node") requires.  On
the test's input — `getValue(d)` once at top level, then
`setValue(s, 2)` with no transaction open — the derived node ends up
invalidated (`invalidatedSourcesCount = 1`) with zero subscribers
while the status is Inactive and both pending sets are empty, yet it
is NOT disposed: its cache still holds `Value 1` instead of
`Uninitialized`, its `sources` list still holds `s`, and its entry is
still in `s`'s subscriber map.  The cause: `invalidate` calls
`checkForDisposal(target)` before adding `subscriptionCount` to
`target.invalidatedSourcesCount`, so the eligibility check reads the
stale count and never fires on this path. -/
theorem c4_missed_disposal_on_invalidate :
    run 50 (.getVal 1) dispGraph = some (.ok 1, dispGraphRead) ∧
    run 50 (.setVal 0 (.lit 2)) dispGraphRead = some (.ok 2, dispGraphLeaked) ∧
    countN (nodeAt dispGraphLeaked 1) = 1 ∧
    targetsN (nodeAt dispGraphLeaked 1) = [] ∧
    dispGraphLeaked.status = .inactive ∧
    dispGraphLeaked.possiblyInvalidatedDerived = [] ∧
    cacheAt dispGraphLeaked 0 = .val 1 ∧
    sourcesN (nodeAt dispGraphLeaked 1) = [0] ∧
    mapGet (targetsN (nodeAt dispGraphLeaked 0)) 1 = some 1 := by
  exact ⟨rfl, rfl, rfl, rfl, rfl, rfl, rfl, rfl, rfl⟩

end Atoms
